import Mathlib

/-!
Shallow embedding of `src/main.cpp`: a thread-safe vector (`ThreadSafeVector`)
over a logging allocator (`LoggingAllocator`), and the driver `main`.

The container's element state is modelled as a `List Int` (the driver
instantiates `T = int`).  The mutex, the allocator's diagnostic stream and the
allocation/deallocation events of the underlying `std::vector` buffer are
modelled as explicit event traces.
-/

set_option autoImplicit false

namespace MainCpp

/-- The message of the `DataException` thrown by `ThreadSafeVector::get`
(src/main.cpp line 61). -/
def dataErrMsg : String := "Индекс за пределами вектора"

namespace ThreadSafeVector

/-- Model of `ThreadSafeVector::add` (src/main.cpp lines 48-53): under the mutex,
`data.push_back(value)` appends the value at the end. -/
def add (v : List Int) (x : Int) : List Int := v ++ [x]

/-- Model of `ThreadSafeVector::get` (src/main.cpp lines 56-64): under the mutex,
if `index >= data.size()` throw `DataException("Индекс за пределами вектора")`,
otherwise return `data[index]` by value. -/
def get (v : List Int) (i : Nat) : Except String Int :=
  if v.length ≤ i then Except.error dataErrMsg else Except.ok (v.getD i 0)

/-- Model of `ThreadSafeVector::size` (src/main.cpp lines 67-70): under the mutex,
return `data.size()`. -/
def size (v : List Int) : Nat := v.length

end ThreadSafeVector

/-- A default-constructed `ThreadSafeVector` holds an empty `std::vector`. -/
def emptyVec : List Int := []

/-- The serialized effect of a sequence of `add` calls, in the order the mutex
was granted. -/
def appendAll (ws : List Int) : List Int := List.foldl ThreadSafeVector.add emptyVec ws

/-- Reading the container back via `get` over the indices `[0, size())`,
keeping the successfully returned values. -/
def readBack (v : List Int) : List Int :=
  (List.range (ThreadSafeVector.size v)).filterMap fun i => (ThreadSafeVector.get v i).toOption

theorem foldl_add_eq (s ws : List Int) :
    List.foldl ThreadSafeVector.add s ws = s ++ ws := by
  induction ws generalizing s with
  | nil => simp
  | cons w ws ih => simp [ThreadSafeVector.add, ih]

theorem map_getD_range (v : List Int) :
    (List.range v.length).map (fun i => v.getD i 0) = v := by
  induction v with
  | nil => simp
  | cons x v ih =>
    rw [List.length_cons, List.range_succ_eq_map, List.map_cons, List.map_map]
    exact congrArg (List.cons x) ih

theorem readBack_eq (v : List Int) : readBack v = v := by
  have h1 : (List.range v.length).filterMap (fun i => (ThreadSafeVector.get v i).toOption)
      = (List.range v.length).map (fun i => v.getD i 0) := by
    refine List.filterMap_eq_map_iff_forall_eq_some.mpr ?_
    intro i hi
    rw [List.mem_range] at hi
    unfold ThreadSafeVector.get
    rw [if_neg (by omega)]
    rfl
  unfold readBack ThreadSafeVector.size
  rw [h1, map_getD_range]

/-- C1: `get(index)` fails with a `DataError` carrying a human-readable
(non-empty) message exactly when `index ≥ size()`; for `index < size()` it
returns the element at that position by value. -/
theorem get_bounds (v : List Int) (i : Nat) :
    ((∃ m, ThreadSafeVector.get v i = Except.error m ∧ m ≠ "") ↔
      ThreadSafeVector.size v ≤ i) ∧
    (i < ThreadSafeVector.size v → ThreadSafeVector.get v i = Except.ok (v.getD i 0)) := by
  unfold ThreadSafeVector.get ThreadSafeVector.size
  by_cases h : v.length ≤ i
  · rw [if_pos h]
    exact ⟨⟨fun _ => h, fun _ => ⟨dataErrMsg, rfl, by decide⟩⟩, fun hlt => absurd h (by omega)⟩
  · rw [if_neg h]
    refine ⟨⟨?_, fun hle => absurd hle h⟩, fun _ => rfl⟩
    rintro ⟨m, hm, -⟩
    exact Except.noConfusion hm

/-- Witness for C1 on scenario S1: `[10, 20, 30]` with `get(3)` failing and
`get(1)` returning `20`. -/
theorem get_bounds_witness :
    (∃ m, ThreadSafeVector.get [10, 20, 30] 3 = Except.error m ∧ m ≠ "") ∧
    ThreadSafeVector.get [10, 20, 30] 1 = Except.ok 20 :=
  ⟨(get_bounds [10, 20, 30] 3).1.mpr (by decide),
   (get_bounds [10, 20, 30] 1).2 (by decide)⟩

/-- C2: a successful `add(value)` increases the length by exactly one, puts the
value at the last position, and changes no other element of the sequence. -/
theorem add_appends (v : List Int) (x : Int) :
    ThreadSafeVector.size (ThreadSafeVector.add v x) = ThreadSafeVector.size v + 1 ∧
    ThreadSafeVector.get (ThreadSafeVector.add v x) (ThreadSafeVector.size v) =
      Except.ok x ∧
    (∀ i, i < ThreadSafeVector.size v →
      ThreadSafeVector.get (ThreadSafeVector.add v x) i = ThreadSafeVector.get v i) := by
  refine ⟨by simp [ThreadSafeVector.add, ThreadSafeVector.size], ?_, ?_⟩
  · simp [ThreadSafeVector.add, ThreadSafeVector.get, ThreadSafeVector.size,
      List.getD_append_right]
  · intro i hi
    simp only [ThreadSafeVector.size] at hi
    unfold ThreadSafeVector.add ThreadSafeVector.get
    rw [if_neg (by simp; omega), if_neg (by omega)]
    simp [List.getElem?_append_left hi]

/-- Witness for C2 at `v = [10, 20]`, `x = 30`. -/
theorem add_appends_witness :
    ThreadSafeVector.size (ThreadSafeVector.add [10, 20] 30) = 3 ∧
    ThreadSafeVector.get (ThreadSafeVector.add [10, 20] 30) 2 = Except.ok 30 ∧
    ThreadSafeVector.get (ThreadSafeVector.add [10, 20] 30) 0 =
      ThreadSafeVector.get [10, 20] 0 := by
  obtain ⟨h1, h2, h3⟩ := add_appends [10, 20] 30
  exact ⟨h1, h2, h3 0 (by decide)⟩

/-- C3: a freshly constructed sequence has `size() = 0`, and after the
successful appends of any number of tasks have been serialized in any order
(`order` is a permutation of the concatenation of the tasks' value lists,
totaling `M = tasks.flatten.length` appends), `size()` equals `M`. -/
theorem size_counts_appends (tasks : List (List Int)) (order : List Int)
    (h : order.Perm tasks.flatten) :
    ThreadSafeVector.size emptyVec = 0 ∧
    ThreadSafeVector.size (appendAll order) = tasks.flatten.length := by
  refine ⟨rfl, ?_⟩
  unfold appendAll ThreadSafeVector.size
  rw [foldl_add_eq]
  simpa [emptyVec] using h.length_eq

/-- Witness for C3 on scenario S2 reduced to two tasks: tasks `[[10, 20], [30]]`
serialized as `[10, 30, 20]`. -/
theorem size_counts_appends_witness :
    ThreadSafeVector.size emptyVec = 0 ∧
    ThreadSafeVector.size (appendAll [10, 30, 20]) = [[10, 20], [30]].flatten.length :=
  size_counts_appends [[10, 20], [30]] [10, 30, 20] (by decide)

/-- C4: after the appends of any number of tasks, serialized in any order, the
multiset of values read back by `get` over `[0, size())` equals the multiset of
all values supplied to `add`. -/
theorem multiset_preserved (tasks : List (List Int)) (order : List Int)
    (h : order.Perm tasks.flatten) :
    Multiset.ofList (readBack (appendAll order)) = Multiset.ofList tasks.flatten := by
  rw [show appendAll order = order from by
    unfold appendAll; rw [foldl_add_eq]; simp [emptyVec]]
  rw [readBack_eq]
  exact Quot.sound h

/-- Witness for C4: tasks `[[10, 20], [30]]` serialized as `[10, 30, 20]`. -/
theorem multiset_preserved_witness :
    Multiset.ofList (readBack (appendAll [10, 30, 20])) =
      Multiset.ofList [[10, 20], [30]].flatten :=
  multiset_preserved [[10, 20], [30]] [10, 30, 20] (by decide)

/-- A diagnostic event of `LoggingAllocator<T>`: `acq n` is the line
"Выделяем память для n элементов" printed by `allocate` (src/main.cpp line 25),
`rel n` the line "Освобождаем память для n элементов" printed by `deallocate`
(src/main.cpp line 31).  Each event is exactly one line naming its count. -/
inductive AllocEvent where
  | acq : Nat → AllocEvent
  | rel : Nat → AllocEvent
deriving DecidableEq

/-- The state of the `std::vector<int, LoggingAllocator<int>>` inside
`ThreadSafeVector`: its elements, the capacity of its current buffer (`0`
meaning no buffer has been allocated yet), and the diagnostic lines emitted so
far through `LoggingAllocator`. -/
structure VecState where
  elems : List Int
  cap : Nat
  log : List AllocEvent
deriving DecidableEq

/-- A default-constructed vector: no elements, no buffer, no diagnostics. -/
def initVec : VecState := ⟨[], 0, []⟩

/-- The doubling growth of `std::vector`: a new capacity of `max(1, 2*cap)`
requested when the buffer is full. -/
def growCap (c : Nat) : Nat := if c = 0 then 1 else 2 * c

/-- Model of `data.push_back(value)` as called by `ThreadSafeVector::add`: if there is
spare capacity the element is written in place; otherwise a larger buffer is
obtained via `LoggingAllocator::allocate` (one `acq` line), the elements are
moved, and the old buffer, when one exists, is returned via
`LoggingAllocator::deallocate` with its own capacity (one `rel` line). -/
def pushBack (s : VecState) (x : Int) : VecState :=
  if s.elems.length < s.cap then ⟨s.elems ++ [x], s.cap, s.log⟩
  else
    ⟨s.elems ++ [x], growCap s.cap,
      s.log ++ [AllocEvent.acq (growCap s.cap)]
        ++ (if s.cap = 0 then [] else [AllocEvent.rel s.cap])⟩

/-- Destruction of the vector at the end of the container's lifetime: the
current buffer, when one exists, is returned via
`LoggingAllocator::deallocate`, producing a final `rel` line.  The result is
the complete diagnostic log of the container's lifetime. -/
def destroy (s : VecState) : List AllocEvent :=
  s.log ++ (if s.cap = 0 then [] else [AllocEvent.rel s.cap])

/-- A serialized sequence of `push_back` calls. -/
def pushAll (s : VecState) (ws : List Int) : VecState := List.foldl pushBack s ws

/-- The element counts named in the "acquire" lines of a log, in order. -/
def acqCounts (log : List AllocEvent) : List Nat :=
  log.filterMap fun e => match e with
    | AllocEvent.acq n => some n
    | AllocEvent.rel _ => none

/-- The element counts named in the "release" lines of a log, in order. -/
def relCounts (log : List AllocEvent) : List Nat :=
  log.filterMap fun e => match e with
    | AllocEvent.acq _ => none
    | AllocEvent.rel n => some n

/-- The multiset of counts still held by the live buffer, if any. -/
def capList (s : VecState) : List Nat := if s.cap = 0 then [] else [s.cap]

/-- Lifetime invariant: the counts acquired so far are, up to order, the counts
released so far plus the capacity of the live buffer. -/
def logInv (s : VecState) : Prop :=
  (acqCounts s.log).Perm (relCounts s.log ++ capList s)

theorem acqCounts_append (l1 l2 : List AllocEvent) :
    acqCounts (l1 ++ l2) = acqCounts l1 ++ acqCounts l2 := by
  simp [acqCounts]

theorem relCounts_append (l1 l2 : List AllocEvent) :
    relCounts (l1 ++ l2) = relCounts l1 ++ relCounts l2 := by
  simp [relCounts]

theorem acqCounts_acq (n : Nat) : acqCounts [AllocEvent.acq n] = [n] := rfl

theorem acqCounts_rel (n : Nat) : acqCounts [AllocEvent.rel n] = [] := rfl

theorem relCounts_acq (n : Nat) : relCounts [AllocEvent.acq n] = [] := rfl

theorem relCounts_rel (n : Nat) : relCounts [AllocEvent.rel n] = [n] := rfl

theorem pushBack_logInv (s : VecState) (x : Int) (h : logInv s) :
    logInv (pushBack s x) := by
  unfold logInv pushBack
  by_cases hlt : s.elems.length < s.cap
  · rw [if_pos hlt]
    exact h
  · rw [if_neg hlt]
    by_cases hc : s.cap = 0
    · have hg : growCap s.cap = 1 := by simp [growCap, hc]
      have h2 := h.append_right [1]
      simp only [logInv, capList, hc, reduceIte, List.append_nil] at h2
      simp only [hc, reduceIte, hg, capList, acqCounts_append, relCounts_append,
        acqCounts_acq, relCounts_acq, List.append_nil, Nat.one_ne_zero]
      exact h2
    · have hg : growCap s.cap = 2 * s.cap := by simp [growCap, hc]
      have hg0 : ¬ (2 * s.cap = 0) := by omega
      have h2 := h.append_right [2 * s.cap]
      simp only [logInv, capList, hc, reduceIte] at h2
      simp only [hc, reduceIte, hg, capList, hg0, acqCounts_append, relCounts_append,
        acqCounts_acq, relCounts_acq, acqCounts_rel, relCounts_rel,
        List.append_nil, List.append_assoc]
      simpa [List.append_assoc] using h2

theorem pushAll_logInv (ws : List Int) (s : VecState) (h : logInv s) :
    logInv (pushAll s ws) := by
  induction ws generalizing s with
  | nil => exact h
  | cons w ws ih => exact ih (pushBack s w) (pushBack_logInv s w h)

theorem destroy_perm (s : VecState) (h : logInv s) :
    (acqCounts (destroy s)).Perm (relCounts (destroy s)) := by
  unfold destroy
  rw [acqCounts_append, relCounts_append]
  by_cases hc : s.cap = 0
  · simpa [logInv, capList, hc, acqCounts, relCounts] using h
  · have : acqCounts (if s.cap = 0 then [] else [AllocEvent.rel s.cap]) = [] := by
      simp [hc, acqCounts]
    rw [this, List.append_nil]
    have : relCounts (if s.cap = 0 then [] else [AllocEvent.rel s.cap]) = [s.cap] := by
      simp [hc, relCounts]
    rw [this]
    simpa [logInv, capList, hc] using h

/-- C7: over the whole lifetime of the container (any serialized sequence of
appends, then destruction), the counts named in "release" lines are a
permutation of the counts named in "acquire" lines: there are as many release
events as acquire events, and the element counts they report sum identically.
Each event is, by construction, exactly one line naming its count. -/
theorem alloc_log_balanced (ws : List Int) :
    Multiset.ofList (acqCounts (destroy (pushAll initVec ws))) =
      Multiset.ofList (relCounts (destroy (pushAll initVec ws))) ∧
    (acqCounts (destroy (pushAll initVec ws))).length =
      (relCounts (destroy (pushAll initVec ws))).length ∧
    (acqCounts (destroy (pushAll initVec ws))).sum =
      (relCounts (destroy (pushAll initVec ws))).sum := by
  have h0 : logInv initVec := by simp [logInv, initVec, acqCounts, relCounts, capList]
  have hperm := destroy_perm (pushAll initVec ws) (pushAll_logInv ws initVec h0)
  exact ⟨Quot.sound hperm, hperm.length_eq, hperm.sum_eq⟩

/-- An event on the mutex `ThreadSafeVector::mtx` or on the guarded vector
`data`: `lock`/`unlock` are the acquisition and release performed by the
`std::lock_guard` (its construction on entry; its destruction on every exit
path, normal return and stack unwinding alike), `access` is a read or write of
`data`. -/
inductive LEvent where
  | lock : LEvent
  | unlock : LEvent
  | access : LEvent
deriving DecidableEq

/-- The mutex/data trace and result of `ThreadSafeVector::add` (src/main.cpp
lines 48-53): lock, `data.push_back(value)`, unlock at scope exit. -/
def addRun (v : List Int) (x : Int) : List LEvent × List Int :=
  ([LEvent.lock, LEvent.access, LEvent.unlock], ThreadSafeVector.add v x)

/-- The mutex/data trace and result of `ThreadSafeVector::get` (src/main.cpp
lines 56-64): lock, read `data.size()`; out of range — throw `DataException`,
the `lock_guard` unlocking during unwinding; otherwise read `data[index]` and
unlock at scope exit. -/
def getRun (v : List Int) (i : Nat) : List LEvent × Except String Int :=
  if v.length ≤ i then
    ([LEvent.lock, LEvent.access, LEvent.unlock], Except.error dataErrMsg)
  else
    ([LEvent.lock, LEvent.access, LEvent.access, LEvent.unlock], Except.ok (v.getD i 0))

/-- The mutex/data trace and result of `ThreadSafeVector::size` (src/main.cpp
lines 67-70): lock, read `data.size()`, unlock at scope exit. -/
def sizeRun (v : List Int) : List LEvent × Nat :=
  ([LEvent.lock, LEvent.access, LEvent.unlock], v.length)

/-- Scoped-locking discipline, checked by a state machine over the mutex state:
the mutex is only taken when free, only released when held, every access to
`data` happens while it is held, and it is free again at the end. -/
def scopedOk : Bool → List LEvent → Bool
  | false, [] => true
  | true, [] => false
  | false, e :: es =>
      match e with
      | LEvent.lock => scopedOk true es
      | _ => false
  | true, e :: es =>
      match e with
      | LEvent.unlock => scopedOk false es
      | LEvent.access => scopedOk true es
      | LEvent.lock => false

/-- C9: each public operation of `ThreadSafeVector` takes the mutex on entry
and releases it on every exit path — for `get` both the in-range return path
and the error exit, for every index and every state — with every access to
the internal vector performed while the mutex is held (so, in this model, no
unsynchronized access to the representation exists).  A `get` followed by an
`add` is well-scoped as one combined trace, in particular when the `get`
fails with `DataError` (the case `size v ≤ i` characterized in the last
conjunct): the mutex is free after the failure and the subsequent `add` runs
its own critical section from the free state. -/
theorem mutex_scoped (v w : List Int) (i : Nat) (x : Int) :
    scopedOk false (addRun v x).1 = true ∧
    scopedOk false (getRun v i).1 = true ∧
    scopedOk false (sizeRun v).1 = true ∧
    scopedOk false ((getRun v i).1 ++ (addRun w x).1) = true ∧
    (ThreadSafeVector.size v ≤ i → (getRun v i).2 = Except.error dataErrMsg) := by
  refine ⟨rfl, ?_, rfl, ?_, ?_⟩
  · unfold getRun
    by_cases h : v.length ≤ i
    · rw [if_pos h]
      rfl
    · rw [if_neg h]
      rfl
  · unfold getRun addRun
    by_cases h : v.length ≤ i
    · rw [if_pos h]
      rfl
    · rw [if_neg h]
      rfl
  · intro hfail
    unfold ThreadSafeVector.size at hfail
    unfold getRun
    rw [if_pos hfail]

/-- Witness for C9: a failing `get(0)` on the empty container followed by an
`add` on the container `[7]`, with the failure hypothesis discharged. -/
theorem mutex_scoped_witness :
    scopedOk false (addRun [7] 9).1 = true ∧
    scopedOk false (getRun [] 0).1 = true ∧
    scopedOk false (sizeRun []).1 = true ∧
    scopedOk false ((getRun [] 0).1 ++ (addRun [7] 9).1) = true ∧
    (getRun [] 0).2 = Except.error dataErrMsg := by
  obtain ⟨h1, h2, h3, h4, h5⟩ := mutex_scoped [] [7] 0 9
  exact ⟨h1, h2, h3, h4, h5 (by decide)⟩

/-- The class of the error raised when `::operator new` cannot satisfy the
request inside `LoggingAllocator::allocate`: `std::bad_alloc`, the
`AllocationError` of the design. -/
inductive AllocError where
  | badAlloc : AllocError
deriving DecidableEq

/-- Model of `data.push_back(value)` when the allocator can fail: `budget` counts how
many further `allocate` calls the underlying raw allocator will satisfy.  With
spare capacity no allocation happens.  Otherwise `allocate` first prints its
"acquire" line (src/main.cpp line 25) and then requests raw storage: with
exhausted budget `::operator new` raises `std::bad_alloc`, which propagates —
`push_back`'s strong guarantee keeps elements and buffer unchanged; with
budget the growth proceeds as in `pushBack`. -/
def pushBackF (budget : Nat) (s : VecState) (x : Int) :
    Option AllocError × Nat × VecState :=
  if s.elems.length < s.cap then
    (none, budget, ⟨s.elems ++ [x], s.cap, s.log⟩)
  else if budget = 0 then
    (some AllocError.badAlloc, 0,
      ⟨s.elems, s.cap, s.log ++ [AllocEvent.acq (growCap s.cap)]⟩)
  else
    (none, budget - 1,
      ⟨s.elems ++ [x], growCap s.cap,
        s.log ++ [AllocEvent.acq (growCap s.cap)]
          ++ (if s.cap = 0 then [] else [AllocEvent.rel s.cap])⟩)

/-- Model of `ThreadSafeVector::add` over the fallible allocator: the `lock_guard`
trace, and the outcome of the `data.push_back(value)` it wraps — `add` has no
handler, so the allocator's error reaches `add`'s caller exactly as
`push_back` raised it. -/
def addRunF (budget : Nat) (s : VecState) (x : Int) :
    List LEvent × (Option AllocError × Nat × VecState) :=
  ([LEvent.lock, LEvent.access, LEvent.unlock], pushBackF budget s x)

/-- C6: when the allocator fails inside `add`, the `AllocationError` reaches
`add`'s caller unchanged (it is exactly `push_back`'s error, a
`std::bad_alloc`), and the sequence's length and elements — and even its
buffer capacity — are unchanged from before the call. -/
theorem add_alloc_failure (budget : Nat) (s : VecState) (x : Int)
    (h : (addRunF budget s x).2.1.isSome) :
    (addRunF budget s x).2.1 = some AllocError.badAlloc ∧
    (addRunF budget s x).2.1 = (pushBackF budget s x).1 ∧
    (addRunF budget s x).2.2.2.elems = s.elems ∧
    (addRunF budget s x).2.2.2.cap = s.cap ∧
    ThreadSafeVector.size (addRunF budget s x).2.2.2.elems =
      ThreadSafeVector.size s.elems := by
  unfold addRunF pushBackF at h ⊢
  by_cases hlt : s.elems.length < s.cap
  · rw [if_pos hlt] at h
    exact absurd h (by simp)
  · rw [if_neg hlt] at h ⊢
    by_cases hb : budget = 0
    · rw [if_pos hb] at h ⊢
      exact ⟨rfl, rfl, rfl, rfl, rfl⟩
    · rw [if_neg hb] at h
      exact absurd h (by simp)

/-- Witness for C6 on scenario S5 with `K = 1`: one append succeeds on budget
1, the vector is full (`cap = 1`), and the next `add` hits a failing
allocator. -/
theorem add_alloc_failure_witness :
    (addRunF 0 ⟨[7], 1, [AllocEvent.acq 1]⟩ 9).2.1.isSome = true ∧
    (addRunF 0 ⟨[7], 1, [AllocEvent.acq 1]⟩ 9).2.1 = some AllocError.badAlloc ∧
    (addRunF 0 ⟨[7], 1, [AllocEvent.acq 1]⟩ 9).2.2.2.elems = [7] ∧
    (addRunF 0 ⟨[7], 1, [AllocEvent.acq 1]⟩ 9).2.2.2.cap = 1 := by
  have h := add_alloc_failure 0 ⟨[7], 1, [AllocEvent.acq 1]⟩ 9 (by decide)
  exact ⟨by decide, h.1, h.2.2.1, h.2.2.2.1⟩

/-- An event of a single call to `LoggingAllocator::allocate` (src/main.cpp
lines 24-28): `line n` is the diagnostic line "Выделяем память для n элементов"
naming `n`, `raise` is `std::bad_alloc` propagating out of `::operator new`,
`ret` is the normal return of the storage pointer. -/
inductive AcqEvent where
  | line : Nat → AcqEvent
  | raise : AcqEvent
  | ret : AcqEvent
deriving DecidableEq

/-- The events of `allocate(n)`, in program order: the `std::cout` statement on
line 25 runs first and emits the diagnostic line; only then does line 27 call
`::operator new`, which either returns (`ok = true`) or raises
`std::bad_alloc` (`ok = false`). -/
def allocateEvents (ok : Bool) (n : Nat) : List AcqEvent :=
  [AcqEvent.line n] ++ (if ok then [AcqEvent.ret] else [AcqEvent.raise])

def isRaise : AcqEvent → Bool
  | AcqEvent.raise => true
  | _ => false

def isLine (n : Nat) : AcqEvent → Bool
  | AcqEvent.line m => m == n
  | _ => false

/-- Policy 1 of the claim: a failing `acquire(n)` emits no diagnostic line. -/
def noLineOnFailure (n : Nat) : Prop :=
  AcqEvent.line n ∉ allocateEvents false n

/-- Policy 2 of the claim: on a failing `acquire(n)` the failure propagates
before the diagnostic line is emitted (the `raise` event strictly precedes any
`line` event). -/
def failureBeforeLine (n : Nat) : Prop :=
  (allocateEvents false n).findIdx isRaise <
    (allocateEvents false n).findIdx (isLine n)

/-- Counterexample to C5 at `n = 5`: a failing `acquire(5)` emits its
diagnostic line, and emits it before the failure propagates, so neither of the
two policies the claim offers holds. -/
theorem allocate_policy_counterexample :
    ¬ (noLineOnFailure 5 ∨ failureBeforeLine 5) := by
  unfold noLineOnFailure failureBeforeLine
  decide

/-- C5 (amended): on every failing `acquire(n)` exactly one diagnostic line is
emitted, naming `n`, and it is emitted before the failure propagates to the
caller — consistently for every failing acquire. This is the policy the code
actually implements: `std::cout` on line 25 precedes `::operator new` on
line 27, so neither policy offered by the claim holds. -/
theorem allocate_line_precedes_failure (n : Nat) :
    allocateEvents false n = [AcqEvent.line n, AcqEvent.raise] ∧
    (allocateEvents false n).count (AcqEvent.line n) = 1 ∧
    ¬ noLineOnFailure n ∧
    ¬ failureBeforeLine n := by
  refine ⟨rfl, ?_, ?_, ?_⟩
  · show ([AcqEvent.line n, AcqEvent.raise]).count (AcqEvent.line n) = 1
    simp [List.count_cons]
  · simp [noLineOnFailure, allocateEvents]
  · unfold failureBeforeLine allocateEvents
    simp [List.findIdx_cons, isRaise, isLine]

/-- The size of the element type `int` in bytes on the modelled LP64
platform. -/
def sizeofInt : Nat := 4

/-- The bit width of `size_t` on the modelled LP64 platform. -/
def sizetWidth : Nat := 64

/-- The byte count `allocate(n)` passes to `::operator new` (src/main.cpp line
27): the unchecked machine-width product `n * sizeof(T)` in `size_t`
arithmetic. -/
def allocRequestBytes (n : Nat) : Nat := (n * sizeofInt) % 2 ^ sizetWidth

/-- C10: `acquire(n)` requests `(n * sizeof(int)) mod 2^64` bytes; below the
wrap threshold this is the exact byte count, but at `n = 2^62` the product
wraps to `0`, far fewer bytes than the `2^62` elements require, while the
diagnostic line still names the original `n`. -/
theorem alloc_bytes_wrap :
    (∀ n : Nat, allocRequestBytes n = (n * sizeofInt) % 2 ^ sizetWidth) ∧
    (∀ n : Nat, n < 2 ^ 62 → allocRequestBytes n = n * sizeofInt) ∧
    allocRequestBytes (2 ^ 62) = 0 ∧
    allocRequestBytes (2 ^ 62) < 2 ^ 62 * sizeofInt ∧
    (allocateEvents false (2 ^ 62)).count (AcqEvent.line (2 ^ 62)) = 1 := by
  refine ⟨fun n => rfl, ?_, ?_, ?_, ?_⟩
  · intro n h
    unfold allocRequestBytes sizeofInt sizetWidth
    norm_num at h ⊢
    omega
  · norm_num [allocRequestBytes, sizeofInt, sizetWidth]
  · norm_num [allocRequestBytes, sizeofInt, sizetWidth]
  · simp [allocateEvents, List.count_cons]

/-- Witness for C10: at `n = 5` the request is the exact `20` bytes. -/
theorem alloc_bytes_wrap_witness :
    allocRequestBytes 5 = 20 ∧ allocRequestBytes (2 ^ 62) = 0 := by
  have h := alloc_bytes_wrap.2.1 5 (by norm_num)
  exact ⟨by simpa [sizeofInt] using h, alloc_bytes_wrap.2.2.1⟩

/-- A structured error reaching the `try` block of `main` (src/main.cpp lines
105-109): a `DataException`, or any other exception derived from
`std::exception`. -/
inductive DriverError where
  | data : String → DriverError
  | other : String → DriverError
deriving DecidableEq

/-- The tag `main` prints for a caught `DataException` (src/main.cpp
line 106). -/
def dataErrTag : String := "Ошибка данных: "

/-- The tag `main` prints for any other caught `std::exception` (src/main.cpp
line 108). -/
def generalErrTag : String := "Общая ошибка: "

/-- The driver `main` (src/main.cpp lines 74-112): its `try` body either
completes, printing the size and first element, or raises a structured error
that one of the two `catch` clauses (lines 105-109) handles with its tagged
message; in every case `main` falls through to `return 0` (line 111). -/
def mainRun : Except DriverError (Nat × Int) → Nat × List String
  | Except.ok (sz, first) =>
      (0, ["Всего элементов: " ++ toString sz, "Первый элемент: " ++ toString first])
  | Except.error (DriverError.data m) => (0, [dataErrTag ++ m])
  | Except.error (DriverError.other m) => (0, [generalErrTag ++ m])

/-- C8: the driver exits with code 0 on success; it catches a `DataError` and
any other structured error, printing for each a message tagged distinctly per
error kind.  Because both catch clauses together cover every structured error,
no structured error ever goes uncaught, and the claim's "nonzero exit code on
an uncaught structured error" holds vacuously. -/
theorem driver_exit_and_catches :
    (∀ sz : Nat, ∀ first : Int, (mainRun (Except.ok (sz, first))).1 = 0) ∧
    (∀ m, mainRun (Except.error (DriverError.data m)) = (0, [dataErrTag ++ m])) ∧
    (∀ m, mainRun (Except.error (DriverError.other m)) = (0, [generalErrTag ++ m])) ∧
    dataErrTag ≠ generalErrTag := by
  exact ⟨fun _ _ => rfl, fun _ => rfl, fun _ => rfl, by decide⟩

end MainCpp
